import Mathlib

/-!
Verification of the REST trigger dispatcher (trigger/rest/trigger.go).

The file shallowly embeds the dispatcher: the content decoder switch, the
reply encoder, the error paths through http.Error, the route registration
loop of Trigger.Initialize, and the preflight handler.  Go library calls
that the trigger relies on (encoding/json, net/url query parsing, the
multipart form reader, http.Error) are embedded as executable Lean
functions faithful to their documented behaviour on the fragment the
trigger exercises; deliberate restrictions of the embedding are noted at
each definition.  Machine integers are modelled as Int/Nat (no status code
or size computed by the trigger can overflow), byte strings as String.
-/

namespace Rest

/-- Check sub at every suffix of the haystack. -/
def containsSubAux (sub : List Char) : List Char → Bool
  | [] => sub.isEmpty
  | c :: rest => sub.isPrefixOf (c :: rest) || containsSubAux sub rest

/-- Substring containment, the embedding of strings.Contains. -/
def containsSubstr (s sub : String) : Bool :=
  containsSubAux sub.data s.data

/-- Embedding of strings.HasPrefix.  Defined on the character lists so that
it evaluates by reduction. -/
def startsWithStr (s pre : String) : Bool :=
  pre.data.isPrefixOf s.data

/-- Embedding of strings.HasSuffix, on character lists. -/
def endsWithStr (s post : String) : Bool :=
  post.data.isSuffixOf s.data

/-- Drop the first n characters. -/
def dropStr (s : String) (n : Nat) : String :=
  String.mk (s.data.drop n)

/-- Drop the last n characters. -/
def dropRightStr (s : String) (n : Nat) : String :=
  String.mk (s.data.take (s.data.length - n))

/-- ASCII whitespace predicate used by the trimmer. -/
def isWsChar (c : Char) : Bool :=
  c = ' ' || c = '\t' || c = '\n' || c = '\r'

/-- ASCII space trimming, the fragment of strings.TrimSpace the header and
parameter values in this file need. -/
def trimStr (s : String) : String :=
  String.mk ((s.data.dropWhile (fun c => isWsChar c)).reverse.dropWhile (fun c => isWsChar c)).reverse

/-- Splitter worker: scan the input, cutting at each occurrence of the
separator; the fuel exceeds the input length, which makes it inexhaustible. -/
def splitOnFuel (sep : List Char) : Nat → List Char → List Char → List (List Char)
  | 0, s, acc => [acc.reverse ++ s]
  | fuel + 1, s, acc =>
    match s with
    | [] => [acc.reverse]
    | c :: rest =>
      if sep.isPrefixOf (c :: rest) then
        acc.reverse :: splitOnFuel sep fuel (rest.drop (sep.length - 1)) []
      else splitOnFuel sep fuel rest (c :: acc)

/-- Split on every occurrence of a separator, like String.splitOn, defined
structurally so that it evaluates by reduction. -/
def splitOnStr (s sep : String) : List String :=
  if sep = "" then [s]
  else (splitOnFuel sep.data (s.data.length + 1) s.data []).map String.mk

/-- ASCII uppercase of a string, the embedding of strings.ToUpper.  The Go
function is Unicode-aware; every route method string is ASCII, where the two
agree. -/
def toUpperStr (s : String) : String := String.mk (s.data.map Char.toUpper)

/-- ASCII lowercase of a string (used by the media type parser).  Same ASCII
restriction as toUpperStr. -/
def toLowerStr (s : String) : String := String.mk (s.data.map Char.toLower)

/-- http.Header.Get: first value for the key, empty string when absent.  Go
canonicalises header key case; the model looks keys up verbatim and every
request in this file uses the canonical spelling. -/
def headerGet (hs : List (String × List String)) (k : String) : String :=
  match hs.lookup k with
  | some (v :: _) => v
  | _ => ""

/-- Join each multi-valued entry with commas, as the dispatcher does for
headers and query parameters (strings.Join(value, ",")). -/
def joinVals (m : List (String × List String)) : List (String × String) :=
  m.map (fun kv => (kv.1, String.intercalate "," kv.2))

/-- JSON values, the embedding of the dynamic values encoding/json produces
and consumes.  Numbers are modelled as integers: the Go decoder uses float64,
but every number handled by a claim is integral, and non-integral literals
are simply outside the modelled fragment (the parser rejects them). -/
inductive Jval where
  | null
  | bool (b : Bool)
  | num (n : Int)
  | str (s : String)
  | arr (xs : List Jval)
  | obj (fields : List (String × Jval))

/-- Hex digit character (lowercase), for JSON control-character escapes. -/
def hexDigitChar (n : Nat) : Char :=
  if n < 10 then Char.ofNat (48 + n) else Char.ofNat (87 + n)

/-- Two lowercase hex digits of a byte. -/
def hexByte (n : Nat) : String :=
  String.singleton (hexDigitChar (n / 16)) ++ String.singleton (hexDigitChar (n % 16))

/-- Escape one character the way encoding/json does (the encoder used by the
reply writer escapes quote, backslash, the HTML characters and controls). -/
def jsonEscapeChar (c : Char) : String :=
  if c = '"' then "\\\""
  else if c = '\\' then "\\\\"
  else if c = '\n' then "\\n"
  else if c = '\r' then "\\r"
  else if c = '\t' then "\\t"
  else if c = '<' then "\\u003c"
  else if c = '>' then "\\u003e"
  else if c = '&' then "\\u0026"
  else if c.toNat < 32 then "\\u00" ++ hexByte c.toNat
  else String.singleton c

/-- JSON string literal for s. -/
def jsonQuote (s : String) : String :=
  "\"" ++ String.join (s.data.map jsonEscapeChar) ++ "\""

mutual

/-- Serialise a JSON value, the embedding of json.Marshal on the values the
reply writer meets.  Object fields are kept in list order (a Go map would
sort its keys; the objects in this development carry their fields already in
canonical order). -/
def jsonEncode : Jval → String
  | Jval.null => "null"
  | Jval.bool b => if b then "true" else "false"
  | Jval.num n => toString n
  | Jval.str s => jsonQuote s
  | Jval.arr xs => "[" ++ jsonEncodeList xs ++ "]"
  | Jval.obj fs => "\x7b" ++ jsonEncodeFields fs ++ "\x7d"

/-- Comma-separated serialisation of array elements. -/
def jsonEncodeList : List Jval → String
  | [] => ""
  | [x] => jsonEncode x
  | x :: y :: xs => jsonEncode x ++ "," ++ jsonEncodeList (y :: xs)

/-- Comma-separated serialisation of object fields. -/
def jsonEncodeFields : List (String × Jval) → String
  | [] => ""
  | [(k, v)] => jsonQuote k ++ ":" ++ jsonEncode v
  | (k, v) :: f :: fs => jsonQuote k ++ ":" ++ jsonEncode v ++ "," ++ jsonEncodeFields (f :: fs)

end

/-- JSON whitespace predicate. -/
def isWs (c : Char) : Bool :=
  c = ' ' || c = '\t' || c = '\n' || c = '\r'

/-- Drop leading JSON whitespace. -/
def skipWs : List Char → List Char
  | [] => []
  | c :: cs => if isWs c then skipWs cs else c :: cs

/-- Value of a hex digit character. -/
def hexVal (c : Char) : Option Nat :=
  if '0' ≤ c ∧ c ≤ '9' then some (c.toNat - 48)
  else if 'a' ≤ c ∧ c ≤ 'f' then some (c.toNat - 87)
  else if 'A' ≤ c ∧ c ≤ 'F' then some (c.toNat - 55)
  else none

/-- Single-character JSON escapes. -/
def jsonUnescape (c : Char) : Option Char :=
  if c = '"' then some '"'
  else if c = '\\' then some '\\'
  else if c = '/' then some '/'
  else if c = 'n' then some '\n'
  else if c = 't' then some '\t'
  else if c = 'r' then some '\r'
  else if c = 'b' then some (Char.ofNat 8)
  else if c = 'f' then some (Char.ofNat 12)
  else none

/-- Parse the remainder of a JSON string literal (the opening quote already
consumed); returns the decoded characters and the rest of the input.
Surrogate pairs are outside the modelled fragment. -/
def parseJStr : List Char → Option (List Char × List Char)
  | [] => none
  | '"' :: rest => some ([], rest)
  | '\\' :: esc =>
    match esc with
    | 'u' :: a :: b :: c :: d :: rest =>
      match hexVal a, hexVal b, hexVal c, hexVal d with
      | some x1, some x2, some x3, some x4 =>
        (parseJStr rest).map (fun r => (Char.ofNat (((x1 * 16 + x2) * 16 + x3) * 16 + x4) :: r.1, r.2))
      | _, _, _, _ => none
    | e :: rest =>
      match jsonUnescape e with
      | some c => (parseJStr rest).map (fun r => (c :: r.1, r.2))
      | none => none
    | [] => none
  | c :: rest =>
    if c.toNat < 32 then none
    else (parseJStr rest).map (fun r => (c :: r.1, r.2))

/-- Split a maximal run of decimal digits off the front. -/
def takeDigits : List Char → (List Char × List Char)
  | [] => ([], [])
  | c :: rest =>
    if '0' ≤ c ∧ c ≤ '9' then
      let r := takeDigits rest
      (c :: r.1, r.2)
    else ([], c :: rest)

/-- Natural number denoted by a digit run. -/
def digitsToNat (ds : List Char) : Nat :=
  ds.foldl (fun acc c => acc * 10 + (c.toNat - 48)) 0

/-- Parse a JSON number.  Only integer literals are in the modelled fragment:
a fraction or exponent makes the parse fail (see the Jval comment). -/
def parseJNum (cs : List Char) : Option (Int × List Char) :=
  let (neg, cs1) :=
    match cs with
    | '-' :: rest => (true, rest)
    | _ => (false, cs)
  match takeDigits cs1 with
  | ([], _) => none
  | (ds, rest) =>
    match rest with
    | '.' :: _ => none
    | 'e' :: _ => none
    | 'E' :: _ => none
    | _ =>
      let n : Int := Int.ofNat (digitsToNat ds)
      some (if neg then -n else n, rest)

/-- Check that the expected characters head the input. -/
def expectChars : List Char → List Char → Option (List Char)
  | [], cs => some cs
  | e :: es, c :: cs => if c = e then expectChars es cs else none
  | _ :: _, [] => none

mutual

/-- Parse one JSON value, fuel-bounded.  The fuel passed by the entry points
exceeds the input length, which bounds every real nesting depth. -/
def parseJ : Nat → List Char → Option (Jval × List Char)
  | 0, _ => none
  | fuel + 1, cs =>
    match skipWs cs with
    | [] => none
    | '"' :: rest => (parseJStr rest).map (fun r => (Jval.str (String.mk r.1), r.2))
    | 't' :: rest => (expectChars ['r', 'u', 'e'] rest).map (fun rem => (Jval.bool true, rem))
    | 'f' :: rest => (expectChars ['a', 'l', 's', 'e'] rest).map (fun rem => (Jval.bool false, rem))
    | 'n' :: rest => (expectChars ['u', 'l', 'l'] rest).map (fun rem => (Jval.null, rem))
    | '[' :: rest =>
      (match skipWs rest with
       | ']' :: rem => some (Jval.arr [], rem)
       | _ => (parseJArrItems fuel rest).map (fun r => (Jval.arr r.1, r.2)))
    | '\x7b' :: rest =>
      (match skipWs rest with
       | '\x7d' :: rem => some (Jval.obj [], rem)
       | _ => (parseJObjItems fuel rest).map (fun r => (Jval.obj r.1, r.2)))
    | c :: rest =>
      if c = '-' ∨ ('0' ≤ c ∧ c ≤ '9') then
        (parseJNum (c :: rest)).map (fun r => (Jval.num r.1, r.2))
      else none

/-- Parse the items of a non-empty JSON array, up to and including the
closing bracket. -/
def parseJArrItems : Nat → List Char → Option (List Jval × List Char)
  | 0, _ => none
  | fuel + 1, cs =>
    match parseJ fuel cs with
    | none => none
    | some (v, rest) =>
      match skipWs rest with
      | ',' :: rest2 => (parseJArrItems fuel rest2).map (fun r => (v :: r.1, r.2))
      | ']' :: rest2 => some ([v], rest2)
      | _ => none

/-- Parse the fields of a non-empty JSON object, up to and including the
closing brace. -/
def parseJObjItems : Nat → List Char → Option (List (String × Jval) × List Char)
  | 0, _ => none
  | fuel + 1, cs =>
    match skipWs cs with
    | '"' :: rest =>
      (match parseJStr rest with
       | none => none
       | some (kcs, rest1) =>
         match skipWs rest1 with
         | ':' :: rest2 =>
           (match parseJ fuel rest2 with
            | none => none
            | some (v, rest3) =>
              match skipWs rest3 with
              | ',' :: rest4 => (parseJObjItems fuel rest4).map (fun r => ((String.mk kcs, v) :: r.1, r.2))
              | '\x7d' :: rest4 => some ([(String.mk kcs, v)], rest4)
              | _ => none)
         | _ => none)
    | _ => none

end

/-- Embedding of json.Unmarshal into an open value: the whole input must be
one JSON value surrounded only by whitespace; on failure, none.  This is the
check the reply writer uses to classify a string datum. -/
def jsonUnmarshal (s : String) : Option Jval :=
  match parseJ (s.length + 1) s.data with
  | some (v, rest) => if skipWs rest = [] then some v else none
  | none => none

/-- Embedding of json.Decoder.Decode as the trigger uses it: an input that is
empty up to whitespace is the io.EOF case and yields no value without error;
otherwise one JSON value is read from the front (trailing bytes are left
unread, not an error); a malformed value is a decode error. -/
def decodeJsonBody (body : String) : Except String (Option Jval) :=
  match skipWs body.data with
  | [] => Except.ok none
  | cs =>
    match parseJ (cs.length + 1) cs with
    | some (v, _) => Except.ok (some v)
    | none => Except.error "invalid json body"

/-- Percent-decode one query component, the embedding of url.QueryUnescape:
a plus becomes a space, a percent must head two hex digits, anything else is
itself.  Go works on bytes; the model works on characters, which agrees on
the ASCII bodies the claims use. -/
def queryUnescape : List Char → Option (List Char)
  | [] => some []
  | '%' :: rest =>
    (match rest with
     | a :: b :: rest2 =>
       match hexVal a, hexVal b with
       | some x, some y => (queryUnescape rest2).map (fun r => Char.ofNat (16 * x + y) :: r)
       | _, _ => none
     | _ => none)
  | '+' :: rest => (queryUnescape rest).map (fun r => ' ' :: r)
  | c :: rest => (queryUnescape rest).map (fun r => c :: r)

/-- Split a query segment at its first equals sign; no equals sign means an
empty value, as in strings.Cut. -/
def cutEq : List Char → (List Char × List Char)
  | [] => ([], [])
  | '=' :: rest => ([], rest)
  | c :: rest =>
    let r := cutEq rest
    (c :: r.1, r.2)

/-- Append a value under a key, keys in first-appearance order: the value
grouping url.Values performs. -/
def addVal (m : List (String × List String)) (k v : String) : List (String × List String) :=
  match m with
  | [] => [(k, [v])]
  | (k1, vs) :: rest => if k1 = k then (k1, vs ++ [v]) :: rest else (k1, vs) :: addVal rest k v

/-- Loop of the url.ParseQuery embedding over ampersand-separated segments. -/
def parseQueryLoop : List String → List (String × List String) → Except String (List (String × List String))
  | [], m => Except.ok m
  | seg :: rest, m =>
    if seg = "" then parseQueryLoop rest m
    else
      let kv := cutEq seg.data
      match queryUnescape kv.1, queryUnescape kv.2 with
      | some k, some v => parseQueryLoop rest (addVal m (String.mk k) (String.mk v))
      | _, _ => Except.error "invalid URL escape"

/-- Embedding of url.ParseQuery: split on ampersands, skip empty segments,
percent-decode keys and values, group values per key in order of appearance;
a malformed escape makes the whole parse fail at the caller (Go collects the
first error and the trigger turns any error into a 400).  The
version-dependent semicolon handling of Go is not modelled: no claim
exercises a semicolon. -/
def parseQuery (s : String) : Except String (List (String × List String)) :=
  parseQueryLoop (splitOnStr s "&") []

/-- First value of each key, as the trigger keeps content[key] = val[0]
(both branches of its length test pick index 0). -/
def firstValues (m : List (String × List String)) : List (String × String) :=
  m.map (fun kv => (kv.1, kv.2.headD ""))

/-- One uploaded file as surfaced by getFileDetails. -/
structure FileDetail where
  key : String
  fileName : String
  fileType : String
  size : Int
  file : String
deriving DecidableEq

/-- One entry of MultipartForm.File: a file header with its materialised
content (the model keeps the content inline; the in-memory threshold of
ParseMultipartForm only moves bytes to temporary storage and does not change
the observed value). -/
structure FileHeader where
  filename : String
  contentType : String
  content : String
deriving DecidableEq

/-- Embedding of getFileDetails: the map the trigger builds from one file
header.  Size is the content length in bytes (characters in the model, which
agrees on ASCII content). -/
def getFileDetails (key : String) (h : FileHeader) : FileDetail :=
  { key := key, fileName := h.filename, fileType := h.contentType,
    size := Int.ofNat h.content.length, file := h.content }

/-- One multipart part before the file filter. -/
structure PartData where
  name : String
  filename : String
  contentType : String
  content : String

/-- Media type of a Content-Type header value: the token before the first
semicolon, trimmed and lowercased, as mime.ParseMediaType computes it.  The
token-validity check of Go is not modelled; the multipart reader only
compares the result against a fixed valid token, where the two agree on
every input in this file. -/
def mediaTypeOf (ct : String) : String :=
  match splitOnStr ct ";" with
  | [] => ""
  | t :: _ => toLowerStr (trimStr t)

/-- Strip one layer of surrounding double quotes. -/
def stripQuotes (s : String) : String :=
  if startsWithStr s "\"" && endsWithStr s "\"" && 2 ≤ s.length then
    dropRightStr (dropStr s 1) 1
  else s

/-- Value of the named parameter in one semicolon segment, when it is that
parameter. -/
def paramValue (pname seg : String) : Option String :=
  let t := trimStr seg
  if startsWithStr t (pname ++ "=") then some (stripQuotes (dropStr t (pname.length + 1)))
  else none

/-- First occurrence of the named parameter among segments. -/
def findParam (pname : String) : List String → Option String
  | [] => none
  | seg :: rest =>
    match paramValue pname seg with
    | some v => some v
    | none => findParam pname rest

/-- Boundary parameter of a Content-Type header value. -/
def boundaryOf (ct : String) : Option String :=
  match splitOnStr ct ";" with
  | [] => none
  | _ :: ps => findParam "boundary" ps

/-- First header line carrying the given name, its value trimmed.  Go
canonicalises MIME header case; every body in this file uses the canonical
spelling. -/
def findHeader (hname : String) : List String → Option String
  | [] => none
  | line :: rest =>
    if startsWithStr line (hname ++ ":") then some (trimStr (dropStr line (hname.length + 1)))
    else findHeader hname rest

/-- Parse one multipart part: header block, blank line, content.  A part
whose Content-Disposition is missing, not form-data, or carries no name is
skipped by the form reader (ok none); a part without the blank line is a
malformed body. -/
def parsePartOpt (p : String) : Except String (Option PartData) :=
  match splitOnStr p "\r\n\r\n" with
  | [] => Except.error "malformed multipart body"
  | [_] => Except.error "malformed multipart body"
  | hdrBlock :: c :: cs =>
    let content := String.intercalate "\r\n\r\n" (c :: cs)
    let lines := splitOnStr hdrBlock "\r\n"
    match findHeader "Content-Disposition" lines with
    | none => Except.ok none
    | some disp =>
      match splitOnStr disp ";" with
      | [] => Except.ok none
      | kind :: ps =>
        if trimStr kind = "form-data" then
          match findParam "name" ps with
          | none => Except.ok none
          | some nm =>
            Except.ok (some
              { name := nm, filename := (findParam "filename" ps).getD "",
                contentType := (findHeader "Content-Type" lines).getD "", content := content })
        else Except.ok none

/-- Split a multipart body into part chunks at the dash-boundary.  The model
covers canonical bodies: no preamble before the first boundary, boundary
delimiters on their own CRLF lines, a terminating dash-dash delimiter; the
stdlib reader additionally tolerates a preamble, which no claim exercises. -/
def chunksLoop : List String → Except String (List String)
  | [] => Except.error "malformed multipart body"
  | [last] =>
    if startsWithStr last "--" then Except.ok [] else Except.error "malformed multipart body"
  | c :: c2 :: cs =>
    if startsWithStr c "\r\n" && endsWithStr c "\r\n" then
      (chunksLoop (c2 :: cs)).map (fun l => dropRightStr (dropStr c 2) 2 :: l)
    else Except.error "malformed multipart body"

/-- Chunked view of the body for a given boundary. -/
def splitChunks (b body : String) : Except String (List String) :=
  match splitOnStr body ("--" ++ b) with
  | [] => Except.error "malformed multipart body"
  | pre :: rest =>
    if pre = "" then chunksLoop rest else Except.error "malformed multipart body"

/-- Parse every chunk, keeping the parts the form reader keeps. -/
def collectParts : List String → Except String (List PartData)
  | [] => Except.ok []
  | c :: rest =>
    match parsePartOpt c with
    | Except.error e => Except.error e
    | Except.ok none => collectParts rest
    | Except.ok (some p) => (collectParts rest).map (fun l => p :: l)

/-- All parts of a multipart body for a boundary. -/
def partsOf (b body : String) : Except String (List PartData) :=
  match splitChunks b body with
  | Except.error e => Except.error e
  | Except.ok cs => collectParts cs

/-- Append a file header under its field name, names in first-appearance
order within the association list; the list models MultipartForm.File, a Go
map whose iteration order is unspecified. -/
def addFile (m : List (String × List FileHeader)) (k : String) (fh : FileHeader) :
    List (String × List FileHeader) :=
  match m with
  | [] => [(k, [fh])]
  | (k1, fs) :: rest => if k1 = k then (k1, fs ++ [fh]) :: rest else (k1, fs) :: addFile rest k fh

/-- Group the file parts (parts with a filename) by field name; value parts
go to MultipartForm.Value, which the trigger ignores. -/
def groupFilesLoop : List PartData → List (String × List FileHeader) → List (String × List FileHeader)
  | [], m => m
  | p :: rest, m =>
    if p.filename = "" then groupFilesLoop rest m
    else groupFilesLoop rest (addFile m p.name { filename := p.filename, contentType := p.contentType, content := p.content })

/-- Embedding of Request.ParseMultipartForm restricted to its File map: the
declared media type must be multipart/form-data with a boundary parameter,
and the body must parse against that boundary. -/
def parseMultipartForm (ct body : String) : Except String (List (String × List FileHeader)) :=
  if mediaTypeOf ct ≠ "multipart/form-data" then
    Except.error "request Content-Type is not multipart/form-data"
  else
    match boundaryOf ct with
    | none => Except.error "no multipart boundary param in Content-Type"
    | some b => (partsOf b body).map (fun ps => groupFilesLoop ps [])

/-- File headers registered under one field name. -/
def lookupGroup (m : List (String × List FileHeader)) (k : String) : List FileHeader :=
  match m.lookup k with
  | some fs => fs
  | none => []

/-- The double loop of the trigger over MultipartForm.File: outer loop over
the map keys in the iteration order the runtime happens to pick, inner loop
over the headers of one key in slice order. -/
def collectFiles (iter : List String) (m : List (String × List FileHeader)) : List FileDetail :=
  iter.flatMap (fun k => (lookupGroup m k).map (getFileDetails k))

/-- Canonical content value, the tagged union behind out.Content: the json
branch stores the decoded value (none for the empty-body io.EOF case), the
form branch the first-value map, the multipart branch the files list (the
body slot of the map the trigger builds is always nil and carries no
information), the raw branch the body string. -/
inductive ContentValue where
  | json (v : Option Jval)
  | form (fields : List (String × String))
  | multipart (files : List FileDetail)
  | raw (s : String)

/-- The four arms of the Content-Type switch of newActionHandler. -/
inductive Branch where
  | form
  | json
  | multipart
  | raw
deriving DecidableEq

/-- Dispatch of the Content-Type switch: two case-sensitive exact matches,
then the strings.Contains test of the default arm, then raw. -/
def selectBranch (ct : String) : Branch :=
  if ct = "application/x-www-form-urlencoded" then Branch.form
  else if ct = "application/json" then Branch.json
  else if containsSubstr ct "multipart/form-data" then Branch.multipart
  else Branch.raw

/-- Form branch of the switch: read the body, parse it as a query string,
keep the first value of each key. -/
def decodeForm (body : String) : Except String ContentValue :=
  match parseQuery body with
  | Except.error e => Except.error e
  | Except.ok m => Except.ok (ContentValue.form (firstValues m))

/-- Multipart branch of the switch: parse the form, then walk the File map
in the given iteration order collecting file details. -/
def decodeMultipart (ct body : String) (iter : List String) : Except String ContentValue :=
  match parseMultipartForm ct body with
  | Except.error e => Except.error e
  | Except.ok form => Except.ok (ContentValue.multipart (collectFiles iter form))

/-- The whole body decoder of newActionHandler, lines 167 to 254: dispatch on
the declared content type and run the branch body.  The iter argument records
the map iteration order the Go runtime picks when walking MultipartForm.File;
it is unused outside the multipart branch.  Transport-level read failures
cannot occur on an in-memory body and are outside the model. -/
def decodeBody (ct body : String) (iter : List String) : Except String ContentValue :=
  match selectBranch ct with
  | Branch.form => decodeForm body
  | Branch.json => (decodeJsonBody body).map ContentValue.json
  | Branch.multipart => decodeMultipart ct body iter
  | Branch.raw => Except.ok (ContentValue.raw body)

/-- The reply the handler results map to: code (0 meaning unset) and an
optional data value. -/
structure Reply where
  code : Int
  data : Option Jval

/-- An HTTP response as the dispatcher commits it: status line, the
Content-Type header when one is set, extra headers (used by the preflight
responder), body bytes. -/
structure Response where
  status : Int
  contentType : Option String
  headers : List (String × String)
  body : String
deriving DecidableEq

/-- Content type written for JSON bodies. -/
def jsonContentType : String := "application/json; charset=UTF-8"

/-- Content type written for plain-text bodies. -/
def textContentType : String := "text/plain; charset=UTF-8"

/-- Embedding of http.Error as the trigger calls it: status 400, plain-text
content type, and the message written by Fprintln, which appends a newline.
The nosniff header Go adds carries no claim and is left out. -/
def httpError (msg : String) : Response :=
  { status := 400, contentType := some "text/plain; charset=utf-8", headers := [], body := msg ++ "\n" }

/-- The reply writer of newActionHandler, lines 271 to 309: with data
present, default a zero code to 200, then type-switch on data; a string
datum is classified by a throwaway json.Unmarshal and written verbatim;
any other datum is written through json.Encoder.Encode, which writes the
serialisation followed by a newline.  Without data, the status is the code
when positive and 200 otherwise, with an empty body. -/
def writeReply (reply : Reply) : Response :=
  match reply.data with
  | some d =>
    let code := if reply.code = 0 then 200 else reply.code
    match d with
    | Jval.str t =>
      match jsonUnmarshal t with
      | none => { status := code, contentType := some textContentType, headers := [], body := t }
      | some _ => { status := code, contentType := some jsonContentType, headers := [], body := t }
    | _ =>
      { status := code, contentType := some jsonContentType, headers := [],
        body := jsonEncode d ++ "\n" }
  | none =>
    if 0 < reply.code then { status := reply.code, contentType := none, headers := [], body := "" }
    else { status := 200, contentType := none, headers := [], body := "" }

/-- An inbound HTTP request as the handler closure sees it. -/
structure HttpRequest where
  httpMethod : String
  headers : List (String × List String)
  query : List (String × List String)
  params : List (String × String)
  body : String

/-- The canonical request (Output) the dispatcher assembles. -/
structure Output where
  method : String
  pathParams : List (String × String)
  queryParams : List (String × String)
  headers : List (String × String)
  content : ContentValue

/-- Assembly of the canonical request, lines 147 to 165 plus the content
assignment: the method field is the method string baked into the closure at
registration, never the request line. -/
def buildOutput (method : String) (req : HttpRequest) (content : ContentValue) : Output :=
  { method := method, pathParams := req.params, queryParams := joinVals req.query,
    headers := joinVals req.headers, content := content }

/-- Observable outcome of dispatching one request: the committed response,
whether the external handler ran, whether a reply was encoded, and the
canonical request delivered to the handler when one was. -/
structure DispatchResult where
  response : Response
  handlerInvoked : Bool
  replyEncoded : Bool
  canonical : Option Output

/-- The request closure newActionHandler returns, lines 140 to 310.  The
handler argument models handler.Handle followed by Reply.FromMap: both
failure modes take the same http.Error path before any reply is written.
The actual-request CORS headers of line 145 come from the cors package,
which is outside the sources under study, and carry no claim. -/
def actionHandler (method : String) (handler : Output → Except String Reply)
    (req : HttpRequest) (iter : List String) : DispatchResult :=
  match decodeBody (headerGet req.headers "Content-Type") req.body iter with
  | Except.error e =>
    { response := httpError e, handlerInvoked := false, replyEncoded := false, canonical := none }
  | Except.ok content =>
    let out := buildOutput method req content
    match handler out with
    | Except.error e =>
      { response := httpError e, handlerInvoked := true, replyEncoded := false, canonical := some out }
    | Except.ok reply =>
      { response := writeReply reply, handlerInvoked := true, replyEncoded := true, canonical := some out }

/-- Per-route handler settings as Trigger.Initialize reads them. -/
structure HandlerSettings where
  method : String
  path : String
deriving DecidableEq

/-- What a route table entry points at: the shared preflight responder, or
an action closure holding the uppercased method and the index of its
handler. -/
inductive RouteHandler where
  | preflight
  | action (canonMethod : String) (idx : Nat)
deriving DecidableEq

/-- One registration performed on the router. -/
structure RouteEntry where
  method : String
  path : String
  handler : RouteHandler
deriving DecidableEq

/-- The registration loop of Trigger.Initialize, lines 72 to 92: on first
sight of a path, register the preflight responder for it under OPTIONS, then
always register the action handler under the configured method, with the
uppercased method baked into the closure. -/
def registerLoop : List HandlerSettings → List String → Nat → List RouteEntry
  | [], _, _ => []
  | s :: rest, seen, i =>
    if s.path ∈ seen then
      { method := s.method, path := s.path, handler := RouteHandler.action (toUpperStr s.method) i }
        :: registerLoop rest seen (i + 1)
    else
      { method := "OPTIONS", path := s.path, handler := RouteHandler.preflight }
        :: { method := s.method, path := s.path, handler := RouteHandler.action (toUpperStr s.method) i }
        :: registerLoop rest (s.path :: seen) (i + 1)

/-- All registrations for a handler list, in order. -/
def registerAll (hs : List HandlerSettings) : List RouteEntry :=
  registerLoop hs [] 0

/-- Is this entry the preflight registration for the path. -/
def isPreflightAt (path : String) (e : RouteEntry) : Bool :=
  e.path == path && e.handler == RouteHandler.preflight

/-- Number of preflight registrations a path received. -/
def countPreflight : List RouteEntry → String → Nat
  | [], _ => 0
  | e :: es, path => (if isPreflightAt path e then 1 else 0) + countPreflight es path

/-- CORS policy resolved from the environment under the fixed prefix. -/
structure CorsPolicy where
  allowedOrigins : List String
  allowedMethods : List String
  allowedHeaders : List String

/-- Modelled from the spec: cors.Cors.HandlePreflight of the cors package is
part of this repository but outside the sources under study.  Per the spec it
computes the applicable Access-Control-Allow headers from the configured
policy and the request origin, writing no allow-origin header when the origin
is not allowed, and answers with a success status and empty body. -/
def corsAllowHeaders (p : CorsPolicy) (origin : String) : List (String × String) :=
  if origin ∈ p.allowedOrigins then
    [("Access-Control-Allow-Origin", origin),
     ("Access-Control-Allow-Methods", String.intercalate "," p.allowedMethods),
     ("Access-Control-Allow-Headers", String.intercalate "," p.allowedHeaders)]
  else []

/-- Modelled from the spec: the response the preflight responder commits,
headers only, success status, empty body. -/
def corsPreflightResponse (p : CorsPolicy) (req : HttpRequest) : Response :=
  { status := 200, contentType := none,
    headers := corsAllowHeaders p (headerGet req.headers "Origin"), body := "" }

/-- Dispatch through one route table entry: the preflight responder answers
via the CORS negotiator and never touches a business handler (lines 127 to
131); an action entry runs the request closure. -/
def dispatchEntry (env : Nat → Output → Except String Reply) (p : CorsPolicy)
    (e : RouteEntry) (req : HttpRequest) (iter : List String) : DispatchResult :=
  match e.handler with
  | RouteHandler.preflight =>
    { response := corsPreflightResponse p req, handlerInvoked := false, replyEncoded := false,
      canonical := none }
  | RouteHandler.action m i => actionHandler m (env i) req iter

/-! Concrete inputs used by witnesses and counterexamples. -/

/-- A request with JSON content type and empty body. -/
def reqJsonEmpty : HttpRequest :=
  { httpMethod := "POST", headers := [("Content-Type", ["application/json"])],
    query := [], params := [], body := "" }

/-- A handler that succeeds with an empty reply. -/
def handlerOk : Output → Except String Reply :=
  fun _ => Except.ok { code := 0, data := none }

/-- A handler that fails with a fixed message. -/
def handlerBoom : Output → Except String Reply :=
  fun _ => Except.error "boom"

/-- A handler environment for route dispatch examples. -/
def envOk : Nat → Output → Except String Reply :=
  fun _ => handlerOk

/-- An empty CORS policy. -/
def corsEmpty : CorsPolicy := { allowedOrigins := [], allowedMethods := [], allowedHeaders := [] }

/-- Content type of the concrete multipart example. -/
def mpCT : String := "multipart/form-data; boundary=B"

/-- A multipart body with one file under field a and one under field b. -/
def mpBody : String :=
  "--B\r\nContent-Disposition: form-data; name=\"a\"; filename=\"a.txt\"\r\n\r\nAA\r\n--B\r\nContent-Disposition: form-data; name=\"b\"; filename=\"b.txt\"\r\n\r\nBB\r\n--B--"

/-- The file detail of the part under field a. -/
def fdA : FileDetail :=
  { key := "a", fileName := "a.txt", fileType := "", size := 2, file := "AA" }

/-- The file detail of the part under field b. -/
def fdB : FileDetail :=
  { key := "b", fileName := "b.txt", fileType := "", size := 2, file := "BB" }

/-- The file header of the part under field a. -/
def fhA : FileHeader := { filename := "a.txt", contentType := "", content := "AA" }

/-- The file header of the part under field b. -/
def fhB : FileHeader := { filename := "b.txt", contentType := "", content := "BB" }

/-- Validity of a map iteration order for a decode: whenever the multipart
branch applies and the form parses, the order the runtime walks the File map
in enumerates exactly the keys of that map, each once; in every other case
there is no map to iterate and any order is valid. -/
def mpIterValid (ct body : String) (iter : List String) : Prop :=
  selectBranch ct = Branch.multipart →
    ∀ form, parseMultipartForm ct body = Except.ok form → iter.Perm (form.map Prod.fst)

/-! Helper lemmas shared by the claim theorems. -/

/-- A failed decode commits the http.Error response without touching the
handler. -/
theorem actionHandler_decode_error (method : String) (handler : Output → Except String Reply)
    (req : HttpRequest) (iter : List String) (e : String)
    (h : decodeBody (headerGet req.headers "Content-Type") req.body iter = Except.error e) :
    actionHandler method handler req iter =
      { response := httpError e, handlerInvoked := false, replyEncoded := false,
        canonical := none } := by
  unfold actionHandler
  rw [h]

/-- A successful decode hands the canonical request to the handler and the
outcome is decided by the handler alone. -/
theorem actionHandler_decode_ok (method : String) (handler : Output → Except String Reply)
    (req : HttpRequest) (iter : List String) (content : ContentValue)
    (h : decodeBody (headerGet req.headers "Content-Type") req.body iter = Except.ok content) :
    actionHandler method handler req iter =
      match handler (buildOutput method req content) with
      | Except.error e =>
        { response := httpError e, handlerInvoked := true, replyEncoded := false,
          canonical := some (buildOutput method req content) }
      | Except.ok reply =>
        { response := writeReply reply, handlerInvoked := true, replyEncoded := true,
          canonical := some (buildOutput method req content) } := by
  unfold actionHandler
  rw [h]

/-- Looking a key up in the first-value map is taking the head of its value
group. -/
theorem lookup_firstValues (vals : List (String × List String)) (k : String) :
    (firstValues vals).lookup k = (vals.lookup k).map (fun vs => vs.headD "") := by
  induction vals with
  | nil => rfl
  | cons kv rest ih =>
    obtain ⟨k1, vs⟩ := kv
    cases hk : k == k1
    · simp [firstValues, List.lookup, hk]
      simpa [firstValues] using ih
    · simp [firstValues, List.lookup, hk]

/-- A successful form decode always carries a form value. -/
theorem decodeForm_ok_shape (body : String) (r : ContentValue)
    (h : decodeForm body = Except.ok r) : ∃ m, r = ContentValue.form m := by
  unfold decodeForm at h
  cases hq : parseQuery body with
  | error e => rw [hq] at h; cases h
  | ok m => rw [hq] at h; injection h with h; exact ⟨firstValues m, h.symm⟩

/-! Claim theorems. -/

/-- C7: for every reply whose data field is absent, the response body is
empty and the status is the code when the code is positive and 200 when the
code is zero; in particular code 201 with absent data writes status 201 with
empty body. -/
theorem c7_reply_absent_data (code : Int) :
    (0 < code → writeReply { code := code, data := none } =
      { status := code, contentType := none, headers := [], body := "" }) ∧
    (code = 0 → writeReply { code := code, data := none } =
      { status := 200, contentType := none, headers := [], body := "" }) ∧
    (writeReply { code := code, data := none }).body = "" := by
  refine ⟨fun h => ?_, fun h => ?_, ?_⟩
  · simp [writeReply, h]
  · subst h; simp [writeReply]
  · by_cases h : 0 < code
    · simp [writeReply, h]
    · simp [writeReply, h]

/-- Witness for C7 at the concrete inputs 201 and 0. -/
theorem c7_reply_absent_data_witness :
    writeReply { code := 201, data := none } =
      { status := 201, contentType := none, headers := [], body := "" } ∧
    writeReply { code := 0, data := none } =
      { status := 200, contentType := none, headers := [], body := "" } :=
  ⟨(c7_reply_absent_data 201).1 (by decide), (c7_reply_absent_data 0).2.1 rfl⟩

/-- C6: for every reply whose data field is a string, the string is parsed
as JSON only to classify the content type, its raw bytes are written
unmodified as the body, and the status defaults to 200 when the code is
unset; the reply with code 0 and data hello writes status 200, body hello,
plain-text content type. -/
theorem c6_reply_string_data (code : Int) (s : String) :
    writeReply { code := code, data := some (Jval.str s) } =
      { status := if code = 0 then 200 else code,
        contentType := some (match jsonUnmarshal s with
                             | none => textContentType
                             | some _ => jsonContentType),
        headers := [], body := s } ∧
    writeReply { code := 0, data := some (Jval.str "hello") } =
      { status := 200, contentType := some textContentType, headers := [], body := "hello" } := by
  constructor
  · cases h : jsonUnmarshal s <;> simp [writeReply, h]
  · rfl

/-- C1 counterexample: the body written for the non-string datum of the
specified example carries the trailing newline of the stream encoder, so it
is not exactly the JSON serialisation. -/
theorem c1_counterexample :
    (writeReply { code := 0, data := some (Jval.obj [("x", Jval.num 1)]) }).status = 200 ∧
    (writeReply { code := 0, data := some (Jval.obj [("x", Jval.num 1)]) }).contentType =
      some jsonContentType ∧
    (writeReply { code := 0, data := some (Jval.obj [("x", Jval.num 1)]) }).body =
      "\x7b\"x\":1\x7d\n" ∧
    (writeReply { code := 0, data := some (Jval.obj [("x", Jval.num 1)]) }).body ≠
      "\x7b\"x\":1\x7d" := by
  refine ⟨rfl, rfl, rfl, ?_⟩
  decide

/-- C1 amended: for every reply whose data field is present and not a
string, the dispatcher serialises data as JSON and writes that serialisation
followed by one newline as the body, with JSON content type and the status
code defaulted to 200 when the code is 0. -/
theorem c1_reply_json_data (code : Int) (d : Jval) (hd : ∀ s, d ≠ Jval.str s) :
    writeReply { code := code, data := some d } =
      { status := if code = 0 then 200 else code, contentType := some jsonContentType,
        headers := [], body := jsonEncode d ++ "\n" } := by
  cases d with
  | str s => exact absurd rfl (hd s)
  | null => rfl
  | bool b => rfl
  | num n => rfl
  | arr xs => rfl
  | obj fs => rfl

/-- Witness for C1 amended at the reply of the specified example. -/
theorem c1_reply_json_data_witness :
    writeReply { code := 0, data := some (Jval.obj [("x", Jval.num 1)]) } =
      { status := 200, contentType := some jsonContentType, headers := [],
        body := "\x7b\"x\":1\x7d\n" } := by
  have h := c1_reply_json_data 0 (Jval.obj [("x", Jval.num 1)]) (fun s hs => Jval.noConfusion hs)
  rw [h]
  rfl

/-- C2 counterexample: a content type that contains multipart/form-data as a
substring without starting with it, and is neither exact-match type, takes
the multipart arm of the switch rather than the raw default the claim
requires. -/
theorem c2_counterexample :
    selectBranch "x multipart/form-data" = Branch.multipart ∧
    decodeBody "x multipart/form-data" "hi" [] ≠ Except.ok (ContentValue.raw "hi") ∧
    startsWithStr "x multipart/form-data" "multipart/form-data" = false ∧
    "x multipart/form-data" ≠ "application/x-www-form-urlencoded" ∧
    "x multipart/form-data" ≠ "application/json" := by
  have hval : decodeBody "x multipart/form-data" "hi" [] =
      Except.error "request Content-Type is not multipart/form-data" := rfl
  refine ⟨rfl, ?_, rfl, by decide, by decide⟩
  rw [hval]
  intro h
  exact Except.noConfusion h

/-- C2 amended: among content types other than the two exact matches, the
multipart arm is taken exactly when the declared content type contains
multipart/form-data as a substring, and every other such content type is
decoded as raw. -/
theorem c2_dispatch_contains (ct body : String) (iter : List String)
    (h1 : ct ≠ "application/x-www-form-urlencoded") (h2 : ct ≠ "application/json") :
    (containsSubstr ct "multipart/form-data" = true →
      decodeBody ct body iter = decodeMultipart ct body iter) ∧
    (containsSubstr ct "multipart/form-data" = false →
      decodeBody ct body iter = Except.ok (ContentValue.raw body)) := by
  constructor <;> intro hc <;> simp [decodeBody, selectBranch, h1, h2, hc]

/-- Witness for C2 amended: a plain-text content type decodes as raw, and
the canonical multipart content type takes the multipart arm. -/
theorem c2_dispatch_contains_witness :
    decodeBody "text/plain" "hi" [] = Except.ok (ContentValue.raw "hi") ∧
    decodeBody mpCT mpBody ["a", "b"] = decodeMultipart mpCT mpBody ["a", "b"] :=
  ⟨(c2_dispatch_contains "text/plain" "hi" [] (by decide) (by decide)).2 rfl,
   (c2_dispatch_contains mpCT mpBody ["a", "b"] (by decide) (by decide)).1 rfl⟩

/-- C3: for every form-urlencoded body that parses as a query string, the
decoder produces a form mapping binding each key to its first value only,
discarding additional values; the body a=1 and a=2 and b=x yields the form
with a bound to 1 and b bound to x. -/
theorem c3_form_first_value (body : String) (iter : List String)
    (vals : List (String × List String)) (h : parseQuery body = Except.ok vals) :
    decodeBody "application/x-www-form-urlencoded" body iter =
      Except.ok (ContentValue.form (firstValues vals)) ∧
    (∀ k, (firstValues vals).lookup k = (vals.lookup k).map (fun vs => vs.headD "")) ∧
    decodeBody "application/x-www-form-urlencoded" "a=1&a=2&b=x" iter =
      Except.ok (ContentValue.form [("a", "1"), ("b", "x")]) := by
  refine ⟨?_, fun k => lookup_firstValues vals k, rfl⟩
  simp [decodeBody, selectBranch, decodeForm, h]

/-- Witness for C3 at the body of the specified example. -/
theorem c3_form_first_value_witness :
    decodeBody "application/x-www-form-urlencoded" "a=1&a=2&b=x" [] =
      Except.ok (ContentValue.form [("a", "1"), ("b", "x")]) :=
  (c3_form_first_value "a=1&a=2&b=x" [] [("a", ["1", "2"]), ("b", ["x"])] rfl).2.2

/-- C4: with JSON content type, an empty body decodes successfully to an
absent value and the handler still runs; any actual JSON decode failure,
such as a lone opening brace, produces the 400 error response without
invoking the handler. -/
theorem c4_json_empty_body (method : String) (handler : Output → Except String Reply)
    (req : HttpRequest) (iter : List String)
    (hct : headerGet req.headers "Content-Type" = "application/json") :
    (req.body = "" →
      decodeBody "application/json" req.body iter = Except.ok (ContentValue.json none) ∧
      (actionHandler method handler req iter).handlerInvoked = true) ∧
    (∀ e, decodeBody "application/json" req.body iter = Except.error e →
      (actionHandler method handler req iter).response = httpError e ∧
      (actionHandler method handler req iter).response.status = 400 ∧
      (actionHandler method handler req iter).handlerInvoked = false) ∧
    (∃ e, decodeBody "application/json" "\x7b" iter = Except.error e) := by
  refine ⟨?_, ?_, ⟨"invalid json body", rfl⟩⟩
  · intro hb
    have hdec : decodeBody "application/json" req.body iter = Except.ok (ContentValue.json none) := by
      rw [hb]; rfl
    refine ⟨hdec, ?_⟩
    rw [actionHandler_decode_ok method handler req iter (ContentValue.json none) (by rw [hct]; exact hdec)]
    cases handler (buildOutput method req (ContentValue.json none)) <;> rfl
  · intro e he
    rw [actionHandler_decode_error method handler req iter e (by rw [hct]; exact he)]
    exact ⟨rfl, rfl, rfl⟩

/-- Witness for C4 at a concrete empty-body JSON request. -/
theorem c4_json_empty_body_witness :
    decodeBody "application/json" "" [] = Except.ok (ContentValue.json none) ∧
    (actionHandler "POST" handlerOk reqJsonEmpty []).handlerInvoked = true :=
  (c4_json_empty_body "POST" handlerOk reqJsonEmpty [] rfl).1 rfl

/-- C5 counterexample: the error body the dispatcher writes for a failed
handler carries the newline Fprintln appends, so it is not exactly the
textual message. -/
theorem c5_counterexample :
    (actionHandler "GET" handlerBoom reqJsonEmpty []).response.status = 400 ∧
    (actionHandler "GET" handlerBoom reqJsonEmpty []).response.body = "boom\n" ∧
    (actionHandler "GET" handlerBoom reqJsonEmpty []).response.body ≠ "boom" := by
  refine ⟨rfl, rfl, ?_⟩
  decide

/-- C5 amended: every decode failure and every handler failure commits a 400
response whose body is the textual error message followed by one newline; on
a decode failure the handler is never invoked, and on either failure no
reply is encoded.  The dispatcher is a total function evaluated once per
request, so the model leaves no room for a retry, and an error cannot
propagate anywhere except into this response. -/
theorem c5_error_paths (method : String) (handler : Output → Except String Reply)
    (req : HttpRequest) (iter : List String) :
    (∀ e, decodeBody (headerGet req.headers "Content-Type") req.body iter = Except.error e →
      (actionHandler method handler req iter).response.status = 400 ∧
      (actionHandler method handler req iter).response.body = e ++ "\n" ∧
      (actionHandler method handler req iter).handlerInvoked = false ∧
      (actionHandler method handler req iter).replyEncoded = false) ∧
    (∀ content e,
      decodeBody (headerGet req.headers "Content-Type") req.body iter = Except.ok content →
      handler (buildOutput method req content) = Except.error e →
      (actionHandler method handler req iter).response.status = 400 ∧
      (actionHandler method handler req iter).response.body = e ++ "\n" ∧
      (actionHandler method handler req iter).replyEncoded = false) := by
  constructor
  · intro e he
    rw [actionHandler_decode_error method handler req iter e he]
    exact ⟨rfl, rfl, rfl, rfl⟩
  · intro content e hd hh
    rw [actionHandler_decode_ok method handler req iter content hd, hh]
    exact ⟨rfl, rfl, rfl⟩

/-- Witness for C5 amended at a concrete failing handler. -/
theorem c5_error_paths_witness :
    (actionHandler "GET" handlerBoom reqJsonEmpty []).response.status = 400 ∧
    (actionHandler "GET" handlerBoom reqJsonEmpty []).response.body = "boom" ++ "\n" ∧
    (actionHandler "GET" handlerBoom reqJsonEmpty []).replyEncoded = false :=
  (c5_error_paths "GET" handlerBoom reqJsonEmpty []).2 (ContentValue.json none) "boom" rfl rfl

/-- An action entry is never counted as a preflight registration. -/
theorem isPreflightAt_action (path m p cm : String) (i : Nat) :
    isPreflightAt path { method := m, path := p, handler := RouteHandler.action cm i } = false := by
  simp [isPreflightAt]

/-- A preflight entry is counted exactly when its path matches. -/
theorem isPreflightAt_pre (path p : String) :
    isPreflightAt path { method := "OPTIONS", path := p, handler := RouteHandler.preflight } =
      (p == path) := by
  simp [isPreflightAt]

/-- Preflight count of the registration loop: one per path that occurs in
the remaining settings and was not seen yet, zero otherwise. -/
theorem countPreflight_registerLoop (l : List HandlerSettings) :
    ∀ (seen : List String) (i0 : Nat) (path : String),
    countPreflight (registerLoop l seen i0) path =
      if path ∈ l.map HandlerSettings.path ∧ path ∉ seen then 1 else 0 := by
  induction l with
  | nil =>
    intro seen i0 path
    simp [registerLoop, countPreflight]
  | cons s rest ih =>
    intro seen i0 path
    by_cases hp : s.path ∈ seen
    · simp only [registerLoop, hp, if_true, countPreflight, isPreflightAt_action, ih,
        List.map_cons, List.mem_cons]
      rcases eq_or_ne path s.path with hps | hps
      · subst hps
        simp [hp]
      · simp [hps]
    · simp only [registerLoop, hp, if_false, countPreflight, isPreflightAt_action,
        isPreflightAt_pre, ih, List.map_cons, List.mem_cons]
      rcases eq_or_ne path s.path with hps | hps
      · subst hps
        simp [hp]
      · simp [hps, Ne.symm hps]

/-- Every action entry the registration loop produces comes from one of the
settings, keeps its configured method for routing, and bakes the uppercased
method into the closure. -/
theorem registerLoop_action_method (l : List HandlerSettings) :
    ∀ (seen : List String) (i0 : Nat) (e : RouteEntry), e ∈ registerLoop l seen i0 →
    ∀ (m : String) (i : Nat), e.handler = RouteHandler.action m i →
    ∃ s, s ∈ l ∧ e.method = s.method ∧ m = toUpperStr s.method := by
  induction l with
  | nil =>
    intro seen i0 e he m i ha
    exact absurd he (List.not_mem_nil e)
  | cons s rest ih =>
    intro seen i0 e he m i ha
    by_cases hp : s.path ∈ seen
    · simp only [registerLoop, hp, if_true] at he
      rcases List.mem_cons.mp he with he | he
      · subst he
        injection ha with hm hi
        exact ⟨s, List.mem_cons_self s rest, rfl, hm.symm⟩
      · obtain ⟨s2, hs2, hm2, hu2⟩ := ih seen (i0 + 1) e he m i ha
        exact ⟨s2, List.mem_cons_of_mem s hs2, hm2, hu2⟩
    · simp only [registerLoop, hp, if_false] at he
      rcases List.mem_cons.mp he with he | he
      · subst he
        exact RouteHandler.noConfusion ha
      · rcases List.mem_cons.mp he with he | he
        · subst he
          injection ha with hm hi
          exact ⟨s, List.mem_cons_self s rest, rfl, hm.symm⟩
        · obtain ⟨s2, hs2, hm2, hu2⟩ := ih (s.path :: seen) (i0 + 1) e he m i ha
          exact ⟨s2, List.mem_cons_of_mem s hs2, hm2, hu2⟩

/-- C8: over any sequence of route registrations, each distinct path gets
exactly one preflight registration, however many methods it is registered
under, and a preflight route is answered by the CORS negotiator without
invoking any business handler. -/
theorem c8_single_preflight (hs : List HandlerSettings) (path : String) :
    countPreflight (registerAll hs) path =
      (if path ∈ hs.map HandlerSettings.path then 1 else 0) ∧
    (∀ env p e req iter, e.handler = RouteHandler.preflight →
      (dispatchEntry env p e req iter).handlerInvoked = false ∧
      (dispatchEntry env p e req iter).response = corsPreflightResponse p req) := by
  constructor
  · have h := countPreflight_registerLoop hs [] 0 path
    simpa using h
  · intro env p e req iter hpre
    obtain ⟨em, ep, eh⟩ := e
    cases hpre
    exact ⟨rfl, rfl⟩

/-- Witness for C8: two methods on one path yield one preflight
registration, and a preflight entry is dispatched without a handler. -/
theorem c8_single_preflight_witness :
    countPreflight
      (registerAll [{ method := "GET", path := "/p" }, { method := "POST", path := "/p" }])
      "/p" = 1 ∧
    (dispatchEntry envOk corsEmpty
      { method := "OPTIONS", path := "/p", handler := RouteHandler.preflight }
      reqJsonEmpty []).handlerInvoked = false := by
  constructor
  · rw [(c8_single_preflight
      [{ method := "GET", path := "/p" }, { method := "POST", path := "/p" }] "/p").1]
    decide
  · exact ((c8_single_preflight [] "/p").2 envOk corsEmpty _ reqJsonEmpty [] rfl).1

/-- C10: the method of every canonical request is the uppercased method the
route was configured with, independent of the request: every action entry
in the route table carries the uppercase of the configured method string,
and the canonical request built for it copies exactly that string whatever
the incoming request holds. -/
theorem c10_canonical_method (hs : List HandlerSettings) (e : RouteEntry)
    (he : e ∈ registerAll hs) (m : String) (i : Nat)
    (ha : e.handler = RouteHandler.action m i) :
    (∃ s, s ∈ hs ∧ e.method = s.method ∧ m = toUpperStr s.method) ∧
    (∀ req content, (buildOutput m req content).method = m) ∧
    (∀ handler req iter out, (actionHandler m handler req iter).canonical = some out →
      out.method = m) := by
  refine ⟨registerLoop_action_method hs [] 0 e he m i ha, fun req content => rfl, ?_⟩
  intro handler req iter out hc
  cases hdec : decodeBody (headerGet req.headers "Content-Type") req.body iter with
  | error e2 =>
    rw [actionHandler_decode_error m handler req iter e2 hdec] at hc
    cases hc
  | ok content =>
    rw [actionHandler_decode_ok m handler req iter content hdec] at hc
    cases hh : handler (buildOutput m req content) with
    | error e2 =>
      rw [hh] at hc
      injection hc with h
      rw [← h]
      rfl
    | ok r =>
      rw [hh] at hc
      injection hc with h
      rw [← h]
      rfl

/-- Witness for C10 at a route configured with lowercase method get. -/
theorem c10_canonical_method_witness :
    (buildOutput "GET" reqJsonEmpty (ContentValue.json none)).method = "GET" :=
  (c10_canonical_method [{ method := "get", path := "/p" }]
    { method := "get", path := "/p", handler := RouteHandler.action "GET" 0 }
    (by decide) "GET" 0 rfl).2.1 reqJsonEmpty (ContentValue.json none)

set_option maxRecDepth 8192 in
/-- The two-key iteration order a then b is valid for the concrete multipart
example. -/
theorem mpIterValid_ab : mpIterValid mpCT mpBody ["a", "b"] := by
  intro _ form hform
  have h0 : parseMultipartForm mpCT mpBody = Except.ok [("a", [fhA]), ("b", [fhB])] := rfl
  rw [h0] at hform
  injection hform with h
  rw [← h]
  exact List.Perm.refl _

set_option maxRecDepth 8192 in
/-- The two-key iteration order b then a is valid for the concrete multipart
example. -/
theorem mpIterValid_ba : mpIterValid mpCT mpBody ["b", "a"] := by
  intro _ form hform
  have h0 : parseMultipartForm mpCT mpBody = Except.ok [("a", [fhA]), ("b", [fhB])] := rfl
  rw [h0] at hform
  injection hform with h
  rw [← h]
  exact List.Perm.swap "a" "b" []

set_option maxRecDepth 8192 in
/-- C9 counterexample: on a multipart body with files under two field keys,
two runs over the same content type and body that walk the File map in the
two possible key orders, both of them valid, produce different content
values: the decoder is not a pure function of content type and body. -/
theorem c9_counterexample :
    mpIterValid mpCT mpBody ["a", "b"] ∧ mpIterValid mpCT mpBody ["b", "a"] ∧
    decodeBody mpCT mpBody ["a", "b"] ≠ decodeBody mpCT mpBody ["b", "a"] := by
  refine ⟨mpIterValid_ab, mpIterValid_ba, ?_⟩
  have h1 : decodeBody mpCT mpBody ["a", "b"] =
      Except.ok (ContentValue.multipart [fdA, fdB]) := rfl
  have h2 : decodeBody mpCT mpBody ["b", "a"] =
      Except.ok (ContentValue.multipart [fdB, fdA]) := rfl
  rw [h1, h2]
  intro h
  injection h with h
  injection h with h
  injection h with h3 h4
  exact absurd h3 (by decide)

/-- C9 amended: the decoder is a pure function of content type and body on
every branch except multipart, it fails deterministically, and in the
multipart branch the collected files are determined up to the order the
runtime walks the keys of the File map in: any two valid walks yield the
same files as a multiset. -/
theorem c9_decoder_determinism (ct body : String) (i1 i2 : List String)
    (h1 : mpIterValid ct body i1) (h2 : mpIterValid ct body i2) :
    (selectBranch ct ≠ Branch.multipart → decodeBody ct body i1 = decodeBody ct body i2) ∧
    (∀ e, decodeBody ct body i1 = Except.error e → decodeBody ct body i2 = Except.error e) ∧
    (∀ fs1 fs2, decodeBody ct body i1 = Except.ok (ContentValue.multipart fs1) →
      decodeBody ct body i2 = Except.ok (ContentValue.multipart fs2) → fs1.Perm fs2) := by
  cases hsb : selectBranch ct with
  | form =>
    have hd : ∀ i : List String, decodeBody ct body i = decodeForm body := by
      intro i; simp [decodeBody, hsb]
    refine ⟨fun _ => by rw [hd, hd], fun e he => by rw [hd] at he ⊢; exact he, ?_⟩
    intro fs1 fs2 hf1 hf2
    rw [hd] at hf1
    obtain ⟨mm, hm⟩ := decodeForm_ok_shape body _ hf1
    exact ContentValue.noConfusion hm
  | json =>
    have hd : ∀ i : List String,
        decodeBody ct body i = (decodeJsonBody body).map ContentValue.json := by
      intro i; simp [decodeBody, hsb]
    refine ⟨fun _ => by rw [hd, hd], fun e he => by rw [hd] at he ⊢; exact he, ?_⟩
    intro fs1 fs2 hf1 hf2
    rw [hd] at hf1
    cases hj : decodeJsonBody body with
    | error e0 => rw [hj] at hf1; exact Except.noConfusion hf1
    | ok o =>
      rw [hj] at hf1
      injection hf1 with h
      exact ContentValue.noConfusion h
  | raw =>
    have hd : ∀ i : List String, decodeBody ct body i = Except.ok (ContentValue.raw body) := by
      intro i; simp [decodeBody, hsb]
    refine ⟨fun _ => by rw [hd, hd], fun e he => ?_, ?_⟩
    · rw [hd] at he; exact Except.noConfusion he
    · intro fs1 fs2 hf1 hf2
      rw [hd] at hf1
      injection hf1 with h
      exact ContentValue.noConfusion h
  | multipart =>
    have hd : ∀ i : List String, decodeBody ct body i = decodeMultipart ct body i := by
      intro i; simp [decodeBody, hsb]
    cases hpm : parseMultipartForm ct body with
    | error e0 =>
      have hdm : ∀ i : List String, decodeMultipart ct body i = Except.error e0 := by
        intro i; simp [decodeMultipart, hpm]
      refine ⟨fun hne => absurd rfl hne, fun e he => ?_, fun fs1 fs2 hf1 hf2 => ?_⟩
      · rw [hd i1, hdm i1] at he
        rw [hd i2, hdm i2]
        exact he
      · rw [hd i1, hdm i1] at hf1
        exact Except.noConfusion hf1
    | ok form =>
      have hp1 : i1.Perm (form.map Prod.fst) := h1 hsb form hpm
      have hp2 : i2.Perm (form.map Prod.fst) := h2 hsb form hpm
      have hdm : ∀ i : List String,
          decodeMultipart ct body i = Except.ok (ContentValue.multipart (collectFiles i form)) := by
        intro i; simp [decodeMultipart, hpm]
      refine ⟨fun hne => absurd rfl hne, fun e he => ?_, fun fs1 fs2 hf1 hf2 => ?_⟩
      · rw [hd i1, hdm i1] at he
        exact Except.noConfusion he
      · rw [hd i1, hdm i1] at hf1
        rw [hd i2, hdm i2] at hf2
        injection hf1 with hf1
        injection hf1 with hf1
        injection hf2 with hf2
        injection hf2 with hf2
        rw [← hf1, ← hf2]
        exact List.Perm.flatMap_right _ (hp1.trans hp2.symm)

set_option maxRecDepth 8192 in
/-- Witness for C9 amended at the concrete multipart example: the two valid
walks collect the same files up to order. -/
theorem c9_decoder_determinism_witness : List.Perm [fdA, fdB] [fdB, fdA] :=
  (c9_decoder_determinism mpCT mpBody ["a", "b"] ["b", "a"] mpIterValid_ab mpIterValid_ba).2.2
    [fdA, fdB] [fdB, fdA] rfl rfl

end Rest
